import Mathlib

/-!
Verification model of the fboss BcmPortGroup lane-mode reconfiguration engine
(fboss/agent/hw/bcm/BcmPortGroup.cpp).

Conventions of the shallow embedding:
* A C++ lane mode (BcmPortGroup::LaneMode, an enum with SINGLE = 1, DUAL = 2,
  QUAD = 4) is a Nat carrying the underlying enum value; unnamed numeric
  values other than 1, 2, 4 remain representable, exactly as for a C++ enum.
* cfg::PortSpeed is a Nat (Mbps); the DEFAULT sentinel is 0.
* FbossError throw sites are Except / Option error values, one constructor
  per distinct failure in the error taxonomy.
* Hardware calls are recorded in an explicit trace; the calls themselves are
  modelled as succeeding (a HardwareCallFailure aborts the run at the point
  it occurs and is outside this model, since every property below conditions
  on the hardware calls succeeding).
* C++ exception semantics over mutable state are modelled by returning
  (Option Err x State): on an error the state already mutated is kept.
* The bcm (hardware) port id is identified with the logical port id; no
  property below depends on the distinction.
-/

set_option autoImplicit false

deriving instance DecidableEq for Except

namespace FbossModel

/-- BcmPortGroup::LaneMode: a C++ enum with values SINGLE = 1, DUAL = 2,
QUAD = 4; comparisons in the source compare these underlying values. -/
abbrev LaneMode := Nat

/-- LaneMode::SINGLE, underlying value 1. -/
def LaneMode.SINGLE : LaneMode := 1

/-- LaneMode::DUAL, underlying value 2. -/
def LaneMode.DUAL : LaneMode := 2

/-- LaneMode::QUAD, underlying value 4. -/
def LaneMode.QUAD : LaneMode := 4

/-- The error taxonomy of the engine, one constructor per FbossError throw
site reachable from the modelled code (names follow spec section 7).
InvalidLaneCount is in the taxonomy but is unreachable in the source: the
static_cast in numLanesToLaneMode cannot throw. -/
inductive Err where
  | InvalidConfig : Err
  | UnsupportedSpeed : Err
  | UnknownProfile : Err
  | InvalidLaneCount : Err
  | InvalidPlacement : Nat → LaneMode → Err
  | UnsupportedPlatformOperation : Err
  | PortNotFound : Nat → Err
  | UnsupportedPortSpeed : Nat → Err
deriving DecidableEq

/-- cfg::PortSpeed::DEFAULT sentinel (value 0). -/
def PortSpeedDEFAULT : Nat := 0

/-- The candidate scan of neededLaneModeForSpeed: for each lane speed in
order, skip it when the division of speed leaves a remainder; otherwise
quotient 1 gives SINGLE, 2 gives DUAL, a quotient in (2,4] gives QUAD, and
any other quotient falls through to the next candidate. -/
def neededLaneModeForSpeedGo (speed : Nat) : List Nat → Except Err LaneMode
  | [] => .error .UnsupportedSpeed
  | laneSpeed :: rest =>
    if speed % laneSpeed ≠ 0 then
      neededLaneModeForSpeedGo speed rest
    else if speed / laneSpeed = 1 then .ok LaneMode.SINGLE
    else if speed / laneSpeed = 2 then .ok LaneMode.DUAL
    else if 2 < speed / laneSpeed ∧ speed / laneSpeed ≤ 4 then .ok LaneMode.QUAD
    else neededLaneModeForSpeedGo speed rest

/-- neededLaneModeForSpeed (BcmPortGroup.cpp lines 41-66). -/
def neededLaneModeForSpeed (speed : Nat) (laneSpeeds : List Nat) : Except Err LaneMode :=
  if speed = PortSpeedDEFAULT then .error .InvalidConfig
  else neededLaneModeForSpeedGo speed laneSpeeds

/-- checkLaneModeisValid (lines 68-78): in QUAD mode only lane 0 may be
enabled, in DUAL mode only lanes 0 or 2. -/
def checkLaneModeisValid (lane : Nat) (desiredMode : LaneMode) : Except Err Unit :=
  if desiredMode = LaneMode.QUAD then
    if lane ≠ 0 then .error (.InvalidPlacement lane desiredMode) else .ok ()
  else if desiredMode = LaneMode.DUAL then
    if lane ≠ 0 ∧ lane ≠ 2 then .error (.InvalidPlacement lane desiredMode) else .ok ()
  else .ok ()

/-- A switch-state logical port (the fields of Port the engine reads). -/
structure SwPort where
  id : Nat
  enabled : Bool
  speed : Nat
  profileID : Nat
deriving DecidableEq

/-- The loop of calculateDesiredLaneMode (lines 149-167): lane is the index
into the port list; desired is raised to each enabled member's needed mode
and the placement check runs against the raised (running) value. -/
def calculateDesiredLaneModeGo (laneSpeeds : List Nat) :
    List SwPort → Nat → LaneMode → Except Err LaneMode
  | [], _, desired => .ok desired
  | port :: rest, lane, desired =>
    if port.enabled then
      match neededLaneModeForSpeed port.speed laneSpeeds with
      | .error e => .error e
      | .ok needed =>
        match checkLaneModeisValid lane (if desired < needed then needed else desired) with
        | .error e => .error e
        | .ok _ =>
          calculateDesiredLaneModeGo laneSpeeds rest (lane + 1)
            (if desired < needed then needed else desired)
    else calculateDesiredLaneModeGo laneSpeeds rest (lane + 1) desired

/-- BcmPortGroup::calculateDesiredLaneMode (lines 149-167). -/
def calculateDesiredLaneMode (ports : List SwPort) (laneSpeeds : List Nat) :
    Except Err LaneMode :=
  calculateDesiredLaneModeGo laneSpeeds ports 0 LaneMode.SINGLE

/-- BcmPortGroup::numLanesToLaneMode (lines 140-147): the body is
static_cast of numLanes to the LaneMode enum inside a try/catch.  A C++
static_cast to an enum type never throws, so the catch block is dead code
and the function totally returns the numeric value unchanged (possibly an
unnamed enum value such as 3). -/
def numLanesToLaneMode (numLanes : Nat) : Except Err LaneMode :=
  .ok numLanes

/-- First-match association lookup (models std::map::find on Nat keys as
well as the port-table lookup; map keys are unique so first match is exact). -/
def assocLookup : List (Nat × Nat) → Nat → Option Nat
  | [], _ => none
  | (k, v) :: rest, key => if k = key then some v else assocLookup rest key

/-- The per-port body of calculateDesiredLaneModeFromConfig (lines 180-193),
the spec's requiredLaneModeFromProfile: look up the port's profile in the
supported-profiles map (absent profiles throw), then map the profile's
iphy.numLanes through numLanesToLaneMode. -/
def requiredLaneModeFromProfile (profileID : Nat)
    (supportedProfiles : List (Nat × Nat)) : Except Err LaneMode :=
  match assocLookup supportedProfiles profileID with
  | none => .error .UnknownProfile
  | some numLanes => numLanesToLaneMode numLanes

/-- The loop of calculateDesiredLaneModeFromConfig (lines 169-197). -/
def calculateDesiredLaneModeFromConfigGo (supportedProfiles : List (Nat × Nat)) :
    List SwPort → LaneMode → Except Err LaneMode
  | [], desired => .ok desired
  | port :: rest, desired =>
    if port.enabled then
      match requiredLaneModeFromProfile port.profileID supportedProfiles with
      | .error e => .error e
      | .ok needed =>
        calculateDesiredLaneModeFromConfigGo supportedProfiles rest
          (if desired < needed then needed else desired)
    else calculateDesiredLaneModeFromConfigGo supportedProfiles rest desired

/-- BcmPortGroup::calculateDesiredLaneModeFromConfig (lines 169-197). -/
def calculateDesiredLaneModeFromConfig (ports : List SwPort)
    (supportedProfiles : List (Nat × Nat)) : Except Err LaneMode :=
  calculateDesiredLaneModeFromConfigGo supportedProfiles ports LaneMode.SINGLE

/-- A BcmPort object: its logical port id plus a handle number identifying
the underlying object (handles are reallocated when the flex path destroys
and recreates ports, modelling the identity churn). -/
structure BcmPortM where
  portID : Nat
  handle : Nat
deriving DecidableEq

/-- The BcmPortGroup fields mutated by the engine: controllingPort_,
allPorts_ and laneMode_. -/
structure GroupState where
  controlling : BcmPortM
  allPorts : List BcmPortM
  laneMode : LaneMode
deriving DecidableEq

/-- Modelled from the spec: the BcmPortTable collaborator (the PortTable
sub-capability of spec section 6, BcmPortTable.h is not part of the shown
sources): a map from logical port id to the current port object, where
addEntry creates a fresh object (fresh handle), removeEntry deletes the id's
entry and lookup finds the id's current entry. -/
structure PortTableM where
  entries : List (Nat × Nat)
  nextHandle : Nat
deriving DecidableEq

/-- lookup (BcmPortTable::getBcmPort resolving an id, absent gives none). -/
def tableLookup (t : PortTableM) (id : Nat) : Option Nat :=
  assocLookup t.entries id

/-- removeEntry (BcmPortTable::removeBcmPort). -/
def tableRemove (t : PortTableM) (id : Nat) : PortTableM :=
  { t with entries := t.entries.filter (fun e => e.1 ≠ id) }

/-- addEntry (BcmPortTable::addBcmPort): map semantics, replacing any entry
for the same id with a freshly created object. -/
def tableAdd (t : PortTableM) (id : Nat) : PortTableM :=
  { entries := t.entries.filter (fun e => e.1 ≠ id) ++ [(id, t.nextHandle)],
    nextHandle := t.nextHandle + 1 }

/-- One recorded hardware / collaborator call. -/
inductive HwOp where
  | disableLinkscan : Nat → HwOp
  | disablePort : Nat → HwOp
  | enableLinkscan : Nat → HwOp
  | setLanes : Nat → Nat → HwOp
  | l2Purge : Nat → Nat → HwOp
  | trapControls : Nat → Bool → HwOp
  | builderRemove : List Nat → HwOp
  | builderAdd : List Nat → HwOp
  | builderProgram : HwOp
  | linkSpeedChanged : Nat → Nat → HwOp
deriving DecidableEq

/-- The mutable world the orchestrator acts on: the group, the port table,
the set of ports on which registerInPortGroup(this) has been called, and the
trace of hardware / collaborator calls in execution order. -/
structure OrchState where
  group : GroupState
  table : PortTableM
  registered : List Nat
  trace : List HwOp
deriving DecidableEq

/-- Append one call to the trace. -/
def emit (st : OrchState) (op : HwOp) : OrchState :=
  { st with trace := st.trace ++ [op] }

/-- The platform facts the engine consults: the two capability flags, the
optional supported-profiles table (profile id to iphy.numLanes), the
controlling port's supported lane speeds, whether the platform exposes a
platform-ports mapping and, if so, the member port ids it lists for this
controlling port (in its order), and the per-port supported-speed check used
by the legacy branch of getSwPorts. -/
structure Platform where
  shouldUsePortResourceAPIs : Bool
  supportsAddRemovePort : Bool
  supportedProfiles : Option (List (Nat × Nat))
  laneSpeeds : List Nat
  hasPlatformPorts : Bool
  platformMemberIds : List Nat
  portSupportsSpeed : Nat → Nat → Bool

/-- First-match search of a switch-state port list by port id (models both
state->getPorts()->getPortIf and the local getSwPortIf, lines 86-95). -/
def lookupSwPort : List SwPort → Nat → Option SwPort
  | [], _ => none
  | p :: rest, id => if p.id = id then some p else lookupSwPort rest id

/-- The legacy branch of getSwPorts (lines 215-228): for each member BcmPort
in group order, resolve its switch-state port (absent throws) and check the
port supports the configured speed even when disabled (unsupported throws). -/
def getSwPortsLegacyGo (plat : Platform) (state : List SwPort) :
    List BcmPortM → Except Err (List SwPort)
  | [] => .ok []
  | b :: rest =>
    match lookupSwPort state b.portID with
    | none => .error (.PortNotFound b.portID)
    | some swPort =>
      if plat.portSupportsSpeed b.portID swPort.speed then
        match getSwPortsLegacyGo plat state rest with
        | .error e => .error e
        | .ok ports => .ok (swPort :: ports)
      else .error (.UnsupportedPortSpeed swPort.id)

/-- BcmPortGroup::getSwPorts (lines 199-231): when the platform exposes a
platform-ports mapping, take the platform's member ids for this controlling
port and keep those present in the switch state; otherwise use the legacy
branch over the group's members. -/
def getSwPorts (plat : Platform) (g : GroupState) (state : List SwPort) :
    Except Err (List SwPort) :=
  if plat.hasPlatformPorts then
    .ok (plat.platformMemberIds.filterMap (lookupSwPort state))
  else getSwPortsLegacyGo plat state g.allPorts

/-- The lane-mode computation shared by validConfiguration and
reconfigureIfNeeded (lines 243-250 and 271-279): the profile path when a
supported-profiles table exists, else the speed path. -/
def aggregateDesiredLaneMode (plat : Platform) (ports : List SwPort) :
    Except Err LaneMode :=
  match plat.supportedProfiles with
  | some sp => calculateDesiredLaneModeFromConfig ports sp
  | none => calculateDesiredLaneMode ports plat.laneSpeeds

/-- BcmPortGroup::validConfiguration (lines 237-256): run getSwPorts and the
lane-mode computation inside a try block, converting any failure into false;
the body makes no hardware or registry call, so the state is returned
unchanged. -/
def validConfiguration (plat : Platform) (st : OrchState) (state : List SwPort) :
    Bool × OrchState :=
  match getSwPorts plat st.group state with
  | .error _ => (false, st)
  | .ok ports =>
    match aggregateDesiredLaneMode plat ports with
    | .error _ => (false, st)
    | .ok _ => (true, st)

/-- kBcmL2DeleteStatic flag (line 38). -/
def kBcmL2DeleteStatic : Nat := 1

/-- kBcmL2DeletePending flag (line 39). -/
def kBcmL2DeletePending : Nat := 2

/-- The legacy branch of setActiveLanes (lines 411-445): a SINGLE-DUAL
transition in either direction first writes lane count 4 (QUAD), then every
path writes the desired mode's lane count to the controlling port's
bcmPortControlLanes register, and laneMode_ is updated to the desired mode. -/
def setActiveLanesLegacy (st : OrchState) (desiredLaneMode : LaneMode) :
    Option Err × OrchState :=
  let basePort := st.group.controlling.portID
  let st1 :=
    if (st.group.laneMode = LaneMode.SINGLE ∧ desiredLaneMode = LaneMode.DUAL) ∨
        (st.group.laneMode = LaneMode.DUAL ∧ desiredLaneMode = LaneMode.SINGLE) then
      emit st (.setLanes basePort 4)
    else st
  let st2 := emit st1 (.setLanes basePort desiredLaneMode)
  (none, { st2 with group := { st2.group with laneMode := desiredLaneMode } })

/-- The first loop of setActiveLanesWithFlexPortApi (lines 458-471): for each
current member, purge static and pending L2 entries, then clear the per-port
trap controls (setPortSpecificControls with enable = false, which toggles the
five trap categories as one group). -/
def purgeAndClearTraps : OrchState → List BcmPortM → OrchState
  | st, [] => st
  | st, p :: rest =>
    purgeAndClearTraps
      (emit (emit (emit st (.l2Purge p.portID kBcmL2DeleteStatic))
          (.l2Purge p.portID kBcmL2DeletePending))
        (.trapControls p.portID false))
      rest

/-- The addBcmPort / getBcmPort loop of lines 486-493: for each added port
id, create a fresh port-table entry, then resolve it back out of the table
(the resolution throws when absent, which cannot happen right after the
add); the resolved objects are accumulated as the new member list. -/
def addPortsLoop : PortTableM → List Nat → List BcmPortM →
    Option Err × (PortTableM × List BcmPortM)
  | t, [], acc => (none, (t, acc))
  | t, id :: rest, acc =>
    match tableLookup (tableAdd t id) id with
    | none => (some (.PortNotFound id), (tableAdd t id, acc))
    | some h => addPortsLoop (tableAdd t id) rest (acc ++ [⟨id, h⟩])

/-- The removeBcmPort loop of lines 483-485. -/
def removeAllFromTable : PortTableM → List Nat → PortTableM
  | t, [] => t
  | t, id :: rest => removeAllFromTable (tableRemove t id) rest

/-- The registerInPortGroup loop of lines 500-502. -/
def registerMembers : OrchState → List BcmPortM → OrchState
  | st, [] => st
  | st, p :: rest =>
    registerMembers { st with registered := st.registered ++ [p.portID] } rest

/-- The trap re-enable loop of lines 505-507 (setPortSpecificControls with
enable = true on each new member). -/
def enableTraps : OrchState → List BcmPortM → OrchState
  | st, [] => st
  | st, p :: rest => enableTraps (emit st (.trapControls p.portID true)) rest

/-- BcmPortGroup::setActiveLanesWithFlexPortApi (lines 448-516).  The
resource builder (BcmPortResourceBuilder.h is not part of the shown sources)
is modelled from the spec: removePorts queues the current members, addPorts
queues the new port list and reports the created ports back in that order,
and program() commits both.  Steps in source order: purge L2 entries and
clear traps for every current member; builder remove, add, program; remove
every old id from the port table; add each new id and resolve its new
object; re-resolve the controlling port through the table (absent throws);
replace the member list; register each new member in this group; re-enable
traps on each new member; record the desired lane mode. -/
def setActiveLanesWithFlexPortApi (st : OrchState) (ports : List SwPort)
    (desiredLaneMode : LaneMode) : Option Err × OrchState :=
  let oldIds := st.group.allPorts.map (fun p => p.portID)
  let addedIds := ports.map (fun p => p.id)
  let st1 := purgeAndClearTraps st st.group.allPorts
  let st2 := emit (emit (emit st1 (.builderRemove oldIds)) (.builderAdd addedIds))
    .builderProgram
  let t1 := removeAllFromTable st2.table oldIds
  match addPortsLoop t1 addedIds [] with
  | (some e, (t2, _)) => (some e, { st2 with table := t2 })
  | (none, (t2, newPorts)) =>
    match tableLookup t2 st2.group.controlling.portID with
    | none =>
      (some (.PortNotFound st2.group.controlling.portID), { st2 with table := t2 })
    | some h =>
      let st3 := { st2 with
        table := t2,
        group := { st2.group with
          controlling := ⟨st2.group.controlling.portID, h⟩,
          allPorts := newPorts } }
      let st4 := enableTraps (registerMembers st3 st3.group.allPorts) st3.group.allPorts
      (none, { st4 with group := { st4.group with laneMode := desiredLaneMode } })

/-- BcmPortGroup::setActiveLanes (lines 397-446): when the controlling
port's platform asks for the resource API, a platform that cannot add or
remove ports makes the call fail at once (before any register write or
builder call, and without falling back to the legacy path); otherwise the
flex path runs.  Platforms not asking for the resource API take the legacy
path. -/
def setActiveLanes (plat : Platform) (st : OrchState) (ports : List SwPort)
    (desiredLaneMode : LaneMode) : Option Err × OrchState :=
  if plat.shouldUsePortResourceAPIs then
    if !plat.supportsAddRemovePort then (some .UnsupportedPlatformOperation, st)
    else setActiveLanesWithFlexPortApi st ports desiredLaneMode
  else setActiveLanesLegacy st desiredLaneMode

/-- Step 1 of reconfigureLaneMode (lines 360-364): for every current member,
resolve its old switch-state port (absent throws), disable linkscan, then
disable the port. -/
def disableAllMembers (oldPorts : List SwPort) : OrchState → List BcmPortM →
    Option Err × OrchState
  | st, [] => (none, st)
  | st, b :: rest =>
    match lookupSwPort oldPorts b.portID with
    | none => (some (.PortNotFound b.portID), st)
    | some _ =>
      disableAllMembers oldPorts
        (emit (emit st (.disableLinkscan b.portID)) (.disablePort b.portID)) rest

/-- Step 3 of reconfigureLaneMode (lines 375-380): for every port of the new
list, resolve its BcmPort through the port table (absent throws), and enable
linkscan only when the port is enabled. -/
def enableLinkscanLoop : OrchState → List SwPort → Option Err × OrchState
  | st, [] => (none, st)
  | st, swPort :: rest =>
    match tableLookup st.table swPort.id with
    | none => (some (.PortNotFound swPort.id), st)
    | some _ =>
      if swPort.enabled then enableLinkscanLoop (emit st (.enableLinkscan swPort.id)) rest
      else enableLinkscanLoop st rest

/-- BcmPortGroup::reconfigureLaneMode (lines 349-381). -/
def reconfigureLaneMode (plat : Platform) (st : OrchState)
    (oldPorts newPorts : List SwPort) (newLaneMode : LaneMode) :
    Option Err × OrchState :=
  match disableAllMembers oldPorts st st.group.allPorts with
  | (some e, st1) => (some e, st1)
  | (none, st1) =>
    match setActiveLanes plat st1 newPorts newLaneMode with
    | (some e, st2) => (some e, st2)
    | (none, st2) => enableLinkscanLoop st2 newPorts

/-- The notification loop of reconfigureIfNeeded (lines 285-292), run over
the group's member list as it stands after any transition: a member found in
both the old and new port lists with differing speeds gets a
linkSpeedChanged notification carrying the new speed. -/
def speedChangeNotify (oldPorts newPorts : List SwPort) :
    OrchState → List BcmPortM → OrchState
  | st, [] => st
  | st, b :: rest =>
    match lookupSwPort oldPorts b.portID, lookupSwPort newPorts b.portID with
    | some oldPort, some newPort =>
      if oldPort.speed ≠ newPort.speed then
        speedChangeNotify oldPorts newPorts
          (emit st (.linkSpeedChanged b.portID newPort.speed)) rest
      else speedChangeNotify oldPorts newPorts st rest
    | _, _ => speedChangeNotify oldPorts newPorts st rest

/-- BcmPortGroup::reconfigureIfNeeded (lines 258-293). -/
def reconfigureIfNeeded (plat : Platform) (st : OrchState)
    (oldState newState : List SwPort) : Option Err × OrchState :=
  match getSwPorts plat st.group oldState with
  | .error e => (some e, st)
  | .ok oldPorts =>
    match getSwPorts plat st.group newState with
    | .error e => (some e, st)
    | .ok newPorts =>
      match aggregateDesiredLaneMode plat newPorts with
      | .error e => (some e, st)
      | .ok desiredLaneMode =>
        match (if desiredLaneMode ≠ st.group.laneMode then
            reconfigureLaneMode plat st oldPorts newPorts desiredLaneMode
          else (none, st)) with
        | (some e, st1) => (some e, st1)
        | (none, st1) => (none, speedChangeNotify oldPorts newPorts st1 st1.group.allPorts)

/-- The BcmPortGroup constructor (lines 112-136): the member list is sorted
by port id (std::sort, modelled by insertion sort: any sorting algorithm
yields the same sorted permutation on distinct keys), and laneMode_ is
initialised from the hardware's active lane count through
numLanesToLaneMode. -/
def mkBcmPortGroup (controlling : BcmPortM) (allPorts : List BcmPortM)
    (activeLanes : Nat) : Except Err GroupState :=
  match numLanesToLaneMode activeLanes with
  | .error e => .error e
  | .ok m =>
    .ok { controlling := controlling,
          allPorts := allPorts.insertionSort (fun a b => a.portID ≤ b.portID),
          laneMode := m }

/-! ## Spec-side vocabulary used by the claim statements -/

/-- A lane-speed candidate is usable for a speed when it divides the speed
evenly with a quotient between 1 and 4. -/
def goodCandidate (speed laneSpeed : Nat) : Prop :=
  speed % laneSpeed = 0 ∧ 1 ≤ speed / laneSpeed ∧ speed / laneSpeed ≤ 4

instance (speed laneSpeed : Nat) : Decidable (goodCandidate speed laneSpeed) := by
  unfold goodCandidate
  infer_instance

/-- The lane mode the spec assigns to a usable quotient: 1 gives SINGLE, 2
gives DUAL, anything else in (2,4] gives QUAD. -/
def modeOfQuot (q : Nat) : LaneMode :=
  if q = 1 then LaneMode.SINGLE else if q = 2 then LaneMode.DUAL else LaneMode.QUAD

/-- The pure running aggregate of the speed path: the maximum of the needed
modes of the enabled ports, starting from a given mode, with no placement
checking.  Used to state which value the placement check of member i
actually ran against. -/
def enabledPrefixNeed (laneSpeeds : List Nat) : List SwPort → LaneMode → Except Err LaneMode
  | [], des => .ok des
  | p :: rest, des =>
    if p.enabled then
      match neededLaneModeForSpeed p.speed laneSpeeds with
      | .error e => .error e
      | .ok needed => enabledPrefixNeed laneSpeeds rest (if des < needed then needed else des)
    else enabledPrefixNeed laneSpeeds rest des

instance : IsTotal BcmPortM (fun a b => a.portID ≤ b.portID) :=
  ⟨fun a b => Nat.le_total a.portID b.portID⟩

instance : IsTrans BcmPortM (fun a b => a.portID ≤ b.portID) :=
  ⟨fun _ _ _ h1 h2 => Nat.le_trans h1 h2⟩

/-! ## Concrete fixtures used by the witnesses -/

/-- A legacy platform: no resource API, no profiles, speed path with lane
speeds 10 and 25, no platform-ports mapping, every speed supported. -/
def platLegacyW : Platform :=
  { shouldUsePortResourceAPIs := false, supportsAddRemovePort := false,
    supportedProfiles := none, laneSpeeds := [10, 25], hasPlatformPorts := false,
    platformMemberIds := [], portSupportsSpeed := fun _ _ => true }

/-- A one-member group in SINGLE mode on controlling port 1. -/
def stSingleW : OrchState :=
  { group := { controlling := ⟨1, 0⟩, allPorts := [⟨1, 0⟩], laneMode := LaneMode.SINGLE },
    table := { entries := [(1, 0)], nextHandle := 1 },
    registered := [], trace := [] }

/-- A four-member SINGLE-mode group on controlling port 1, with a foreign
port 9 also present in the port table. -/
def stQuadGroupW : OrchState :=
  { group := { controlling := ⟨1, 0⟩, allPorts := [⟨1, 0⟩, ⟨2, 1⟩, ⟨3, 2⟩, ⟨4, 3⟩],
               laneMode := LaneMode.SINGLE },
    table := { entries := [(1, 0), (2, 1), (3, 2), (4, 3), (9, 4)], nextHandle := 5 },
    registered := [], trace := [] }

/-- Port list refuting the universal DUAL placement claim: lanes 0 and 1
enabled at speed 10, lane 2 enabled at speed 20. -/
def cexPortsC3 : List SwPort :=
  [⟨0, true, 10, 0⟩, ⟨1, true, 10, 0⟩, ⟨2, true, 20, 0⟩]

/-- A platform with a supported-profiles table (profile 5 is 1 lane, 6 is 2
lanes, 7 is 4 lanes). -/
def platProfilesW : Platform :=
  { shouldUsePortResourceAPIs := false, supportsAddRemovePort := false,
    supportedProfiles := some [(5, 1), (6, 2), (7, 4)], laneSpeeds := [10, 25],
    hasPlatformPorts := false, platformMemberIds := [],
    portSupportsSpeed := fun _ _ => true }

/-- A platform that has opted into the resource API but cannot dynamically
add or remove ports. -/
def platFlexNoAddW : Platform :=
  { shouldUsePortResourceAPIs := true, supportsAddRemovePort := false,
    supportedProfiles := none, laneSpeeds := [10, 25], hasPlatformPorts := false,
    platformMemberIds := [], portSupportsSpeed := fun _ _ => true }

/-- A flex-capable platform. -/
def platFlexW : Platform :=
  { shouldUsePortResourceAPIs := true, supportsAddRemovePort := true,
    supportedProfiles := some [(5, 1), (6, 2), (7, 4)], laneSpeeds := [10, 25],
    hasPlatformPorts := true, platformMemberIds := [1, 2, 3, 4],
    portSupportsSpeed := fun _ _ => true }

/-- The orchestrator state produced by the flex transition of the C8
witness: four SINGLE members replaced by one QUAD port. -/
def stfFlexW : OrchState :=
  { group := { controlling := ⟨1, 5⟩, allPorts := [⟨1, 5⟩], laneMode := LaneMode.QUAD },
    table := { entries := [(9, 4), (1, 5)], nextHandle := 6 },
    registered := [1],
    trace := [.l2Purge 1 1, .l2Purge 1 2, .trapControls 1 false,
              .l2Purge 2 1, .l2Purge 2 2, .trapControls 2 false,
              .l2Purge 3 1, .l2Purge 3 2, .trapControls 3 false,
              .l2Purge 4 1, .l2Purge 4 2, .trapControls 4 false,
              .builderRemove [1, 2, 3, 4], .builderAdd [1], .builderProgram,
              .trapControls 1 true] }

/-- A two-member SINGLE-mode group on controlling port 1. -/
def stPairW : OrchState :=
  { group := { controlling := ⟨1, 0⟩, allPorts := [⟨1, 0⟩, ⟨2, 1⟩],
               laneMode := LaneMode.SINGLE },
    table := { entries := [(1, 0), (2, 1)], nextHandle := 2 },
    registered := [], trace := [] }

/-! ## C1: the speed-to-lane-mode scan -/

theorem neededLaneModeForSpeedGo_first_good (speed : Nat) :
    ∀ (laneSpeeds : List Nat) (i : Fin laneSpeeds.length),
      goodCandidate speed (laneSpeeds.get i) →
      (∀ j : Fin laneSpeeds.length, j.val < i.val → ¬ goodCandidate speed (laneSpeeds.get j)) →
      neededLaneModeForSpeedGo speed laneSpeeds = .ok (modeOfQuot (speed / laneSpeeds.get i)) := by
  intro laneSpeeds
  induction laneSpeeds with
  | nil => intro i; exact absurd i.isLt (by simp)
  | cons l rest ih =>
    intro i hi hfirst
    match i with
    | ⟨0, h0⟩ =>
      obtain ⟨hrem, h1, h4⟩ := hi
      simp only [List.get] at hrem h1 h4 ⊢
      rw [neededLaneModeForSpeedGo]
      simp only [hrem, ne_eq, not_true_eq_false, if_false, ite_not]
      rcases Nat.lt_or_ge (speed / l) 2 with hlt | hge
      · have hq1 : speed / l = 1 := by omega
        simp [hq1, modeOfQuot]
      · rcases Nat.eq_or_lt_of_le hge with hq2 | hgt
        · simp [← hq2, modeOfQuot]
        · have hne1 : speed / l ≠ 1 := by omega
          have hne2 : speed / l ≠ 2 := by omega
          simp [hne1, hne2, hgt, h4, modeOfQuot]
    | ⟨j + 1, hj⟩ =>
      have hhead : ¬ goodCandidate speed l := hfirst ⟨0, by simp⟩ (by simp)
      unfold goodCandidate at hhead
      push_neg at hhead
      have hstep : neededLaneModeForSpeedGo speed (l :: rest) =
          neededLaneModeForSpeedGo speed rest := by
        rw [neededLaneModeForSpeedGo]
        by_cases hrem : speed % l = 0
        · have hq : 1 ≤ speed / l → 4 < speed / l := hhead hrem
          have hne1 : speed / l ≠ 1 := fun h => by have := hq (by omega); omega
          have hne2 : speed / l ≠ 2 := fun h => by have := hq (by omega); omega
          have hne3 : ¬ (2 < speed / l ∧ speed / l ≤ 4) := fun h => by
            have := hq (by omega)
            omega
          simp [hrem, hne1, hne2, hne3]
        · simp [hrem]
      rw [hstep]
      exact ih ⟨j, by simpa using Nat.lt_of_succ_lt_succ hj⟩ (by simpa using hi)
        (fun k hk => by
          have := hfirst ⟨k.val + 1, by simp [Nat.succ_lt_succ k.isLt]⟩
            (by simpa using Nat.succ_lt_succ hk)
          simpa using this)

theorem neededLaneModeForSpeedGo_none (speed : Nat) :
    ∀ laneSpeeds : List Nat,
      (∀ i : Fin laneSpeeds.length, speed % laneSpeeds.get i ≠ 0) →
      neededLaneModeForSpeedGo speed laneSpeeds = .error .UnsupportedSpeed := by
  intro laneSpeeds
  induction laneSpeeds with
  | nil => intro _; rfl
  | cons l rest ih =>
    intro hall
    rw [neededLaneModeForSpeedGo]
    have h0 : speed % l ≠ 0 := hall ⟨0, by simp⟩
    rw [if_pos h0]
    exact ih (fun i => by
      have := hall ⟨i.val + 1, by simp [Nat.succ_lt_succ i.isLt]⟩
      simpa using this)

/-- C1.  neededLaneModeForSpeed: the DEFAULT sentinel always fails with
InvalidConfig; otherwise the candidates are scanned in order, skipping every
candidate whose division leaves a remainder and every candidate with
quotient above 4, and the first candidate with an even quotient in [1,4]
determines the result (1 gives SINGLE, 2 gives DUAL, (2,4] gives QUAD);
when no candidate divides the speed evenly the call fails with
UnsupportedSpeed. -/
theorem neededLaneModeForSpeed_spec (speed : Nat) (laneSpeeds : List Nat) :
    (speed = PortSpeedDEFAULT →
      neededLaneModeForSpeed speed laneSpeeds = .error .InvalidConfig)
    ∧ (speed ≠ PortSpeedDEFAULT →
        (∀ i : Fin laneSpeeds.length,
          goodCandidate speed (laneSpeeds.get i) →
          (∀ j : Fin laneSpeeds.length, j.val < i.val →
            ¬ goodCandidate speed (laneSpeeds.get j)) →
          neededLaneModeForSpeed speed laneSpeeds = .ok (modeOfQuot (speed / laneSpeeds.get i)))
        ∧ ((∀ i : Fin laneSpeeds.length, speed % laneSpeeds.get i ≠ 0) →
            neededLaneModeForSpeed speed laneSpeeds = .error .UnsupportedSpeed)) := by
  refine ⟨fun h => by simp [neededLaneModeForSpeed, h], fun h => ⟨fun i hi hfirst => ?_, fun hall => ?_⟩⟩
  · rw [neededLaneModeForSpeed, if_neg h]
    exact neededLaneModeForSpeedGo_first_good speed laneSpeeds i hi hfirst
  · rw [neededLaneModeForSpeed, if_neg h]
    exact neededLaneModeForSpeedGo_none speed laneSpeeds hall

/-- Witness for C1 at concrete inputs: speed 40 with candidates [30, 10]
(the 30 candidate leaves remainder 10 and is skipped, then 40/10 = 4 gives
QUAD); speed 0 fails with InvalidConfig; speed 100 with candidates [40, 30]
fails with UnsupportedSpeed. -/
theorem neededLaneModeForSpeed_spec_witness :
    neededLaneModeForSpeed 40 [30, 10] = .ok LaneMode.QUAD
    ∧ neededLaneModeForSpeed 0 [5] = .error .InvalidConfig
    ∧ neededLaneModeForSpeed 100 [40, 30] = .error .UnsupportedSpeed := by
  refine ⟨?_, ?_, ?_⟩
  · have h := ((neededLaneModeForSpeed_spec 40 [30, 10]).2 (by decide)).1
      ⟨1, by decide⟩ (by decide) (by decide)
    simpa [modeOfQuot] using h
  · exact (neededLaneModeForSpeed_spec 0 [5]).1 rfl
  · exact ((neededLaneModeForSpeed_spec 100 [40, 30]).2 (by decide)).2 (by decide)

/-! ## C2: the legacy transition table -/

/-- C2.  Legacy-path lane-mode change (the controlling port's platform does
not use the resource API) to a different desired mode: the call succeeds, a
SINGLE-DUAL pair (either direction) appends exactly two lane-count register
writes, first lane count 4 and then the desired mode's lane count, a
transition involving QUAD appends exactly one write of the desired lane
count, and the group's recorded lane mode becomes the desired value. -/
theorem setActiveLanes_legacy_spec (plat : Platform) (st : OrchState) (ports : List SwPort)
    (desired : LaneMode) (hplat : plat.shouldUsePortResourceAPIs = false)
    (_hne : st.group.laneMode ≠ desired) :
    (setActiveLanes plat st ports desired).1 = none
    ∧ (setActiveLanes plat st ports desired).2.group.laneMode = desired
    ∧ (((st.group.laneMode = LaneMode.SINGLE ∧ desired = LaneMode.DUAL) ∨
          (st.group.laneMode = LaneMode.DUAL ∧ desired = LaneMode.SINGLE)) →
        (setActiveLanes plat st ports desired).2.trace =
          st.trace ++ [.setLanes st.group.controlling.portID 4,
            .setLanes st.group.controlling.portID desired])
    ∧ ((st.group.laneMode = LaneMode.QUAD ∨ desired = LaneMode.QUAD) →
        (setActiveLanes plat st ports desired).2.trace =
          st.trace ++ [.setLanes st.group.controlling.portID desired]) := by
  have hsel : setActiveLanes plat st ports desired = setActiveLanesLegacy st desired := by
    simp [setActiveLanes, hplat]
  by_cases hc : (st.group.laneMode = LaneMode.SINGLE ∧ desired = LaneMode.DUAL) ∨
      (st.group.laneMode = LaneMode.DUAL ∧ desired = LaneMode.SINGLE)
  · have hres : setActiveLanes plat st ports desired =
        (none, { st with
          group := { st.group with laneMode := desired },
          trace := st.trace ++ [.setLanes st.group.controlling.portID 4,
            .setLanes st.group.controlling.portID desired] }) := by
      rw [hsel]
      simp [setActiveLanesLegacy, hc, emit]
    rw [hres]
    refine ⟨rfl, rfl, fun _ => rfl, fun hq => ?_⟩
    exfalso
    rcases hc with ⟨h1, h2⟩ | ⟨h1, h2⟩ <;> rcases hq with h3 | h3 <;>
      simp only [LaneMode.SINGLE, LaneMode.DUAL, LaneMode.QUAD] at h1 h2 h3 <;> simp_all
  · have hres : setActiveLanes plat st ports desired =
        (none, { st with
          group := { st.group with laneMode := desired },
          trace := st.trace ++ [.setLanes st.group.controlling.portID desired] }) := by
      rw [hsel]
      simp [setActiveLanesLegacy, hc, emit]
    rw [hres]
    exact ⟨rfl, rfl, fun hsd => absurd hsd hc, fun _ => rfl⟩

/-- Witness for C2: from laneMode SINGLE, changing to DUAL emits the writes
(4 lanes, then 2 lanes) and changing to QUAD emits the single write of 4
lanes, on controlling port 1. -/
theorem setActiveLanes_legacy_spec_witness :
    (setActiveLanes platLegacyW stSingleW [] LaneMode.DUAL).2.trace =
      [.setLanes 1 4, .setLanes 1 2]
    ∧ (setActiveLanes platLegacyW stSingleW [] LaneMode.QUAD).2.trace = [.setLanes 1 4]
    ∧ (setActiveLanes platLegacyW stSingleW [] LaneMode.DUAL).2.group.laneMode =
        LaneMode.DUAL := by
  have hd := setActiveLanes_legacy_spec platLegacyW stSingleW [] LaneMode.DUAL rfl (by decide)
  have hq := setActiveLanes_legacy_spec platLegacyW stSingleW [] LaneMode.QUAD rfl (by decide)
  refine ⟨?_, ?_, hd.2.1⟩
  · have := hd.2.2.1 (Or.inl ⟨rfl, rfl⟩)
    simpa [stSingleW, LaneMode.DUAL] using this
  · have := hq.2.2.2 (Or.inr rfl)
    simpa [stSingleW, LaneMode.QUAD] using this

/-! ## C3: placement checking in the speed-path aggregation -/

theorem neededLaneModeForSpeedGo_mem (speed : Nat) :
    ∀ (laneSpeeds : List Nat) (m : LaneMode),
      neededLaneModeForSpeedGo speed laneSpeeds = .ok m →
      m = LaneMode.SINGLE ∨ m = LaneMode.DUAL ∨ m = LaneMode.QUAD := by
  intro laneSpeeds
  induction laneSpeeds with
  | nil =>
    intro m h
    simp [neededLaneModeForSpeedGo] at h
  | cons l rest ih =>
    intro m h
    rw [neededLaneModeForSpeedGo] at h
    split at h
    · exact ih m h
    · split at h
      · exact Or.inl (Except.ok.inj h).symm
      · split at h
        · exact Or.inr (Or.inl (Except.ok.inj h).symm)
        · split at h
          · exact Or.inr (Or.inr (Except.ok.inj h).symm)
          · exact ih m h

theorem neededLaneModeForSpeed_mem (speed : Nat) (laneSpeeds : List Nat) (m : LaneMode)
    (h : neededLaneModeForSpeed speed laneSpeeds = .ok m) :
    m = LaneMode.SINGLE ∨ m = LaneMode.DUAL ∨ m = LaneMode.QUAD := by
  rw [neededLaneModeForSpeed] at h
  split at h
  · exact absurd h (by simp)
  · exact neededLaneModeForSpeedGo_mem speed laneSpeeds m h

theorem calculateDesiredLaneModeGo_all_disabled (laneSpeeds : List Nat) :
    ∀ (ports : List SwPort) (lane : Nat) (des : LaneMode),
      (∀ p ∈ ports, p.enabled = false) →
      calculateDesiredLaneModeGo laneSpeeds ports lane des = .ok des := by
  intro ports
  induction ports with
  | nil => intro lane des _; rfl
  | cons p rest ih =>
    intro lane des hall
    have hp : p.enabled = false := hall p (by simp)
    rw [calculateDesiredLaneModeGo]
    rw [if_neg (by simp [hp])]
    exact ih (lane + 1) des (fun q hq => hall q (by simp [hq]))

theorem calculateDesiredLaneModeGo_quad (laneSpeeds : List Nat) :
    ∀ (ports : List SwPort) (lane : Nat) (des : LaneMode),
      calculateDesiredLaneModeGo laneSpeeds ports lane des = .ok LaneMode.QUAD →
      ∀ i : Fin ports.length, (ports.get i).enabled = true → lane + i.val = 0 := by
  intro ports
  induction ports with
  | nil => intro lane des _ i; exact absurd i.isLt (by simp)
  | cons p rest ih =>
    intro lane des h i hi
    rw [calculateDesiredLaneModeGo] at h
    by_cases hp : p.enabled = true
    · rw [if_pos hp] at h
      cases hn : neededLaneModeForSpeed p.speed laneSpeeds with
      | error e => rw [hn] at h; simp at h
      | ok needed =>
        rw [hn] at h
        dsimp only at h
        cases hc : checkLaneModeisValid lane (if des < needed then needed else des) with
        | error e => rw [hc] at h; simp at h
        | ok u =>
          rw [hc] at h
          dsimp only at h
          have hrest := ih (lane + 1) (if des < needed then needed else des) h
          have hnone : ∀ q ∈ rest, q.enabled = false := by
            intro q hq
            by_contra hqe
            rw [Bool.not_eq_false] at hqe
            obtain ⟨j, hj⟩ := List.mem_iff_get.mp hq
            have hj2 := hrest j (by rw [hj]; exact hqe)
            omega
          have hdes : (if des < needed then needed else des) = LaneMode.QUAD := by
            have hall := calculateDesiredLaneModeGo_all_disabled laneSpeeds rest (lane + 1)
              (if des < needed then needed else des) hnone
            rw [hall] at h
            exact Except.ok.inj h
          have hlane : lane = 0 := by
            rw [hdes] at hc
            by_contra hl
            simp [checkLaneModeisValid, hl] at hc
          rcases i with ⟨iv, hilt⟩
          cases iv with
          | zero => simpa using hlane
          | succ j =>
            exfalso
            have hjlt : j < rest.length := by simpa using Nat.lt_of_succ_lt_succ hilt
            have hje : (rest.get ⟨j, hjlt⟩).enabled = true := by simpa using hi
            have := hnone _ (List.get_mem rest j hjlt)
            rw [this] at hje
            exact Bool.false_ne_true hje
    · rw [if_neg hp] at h
      have hrest := ih (lane + 1) des h
      rcases i with ⟨iv, hilt⟩
      cases iv with
      | zero => exact absurd (by simpa using hi) hp
      | succ j =>
        have hjlt : j < rest.length := by simpa using Nat.lt_of_succ_lt_succ hilt
        have hje : (rest.get ⟨j, hjlt⟩).enabled = true := by simpa using hi
        have h2 : lane + 1 + j = 0 := hrest ⟨j, hjlt⟩ hje
        omega

theorem calculateDesiredLaneModeGo_check (laneSpeeds : List Nat) :
    ∀ (ports : List SwPort) (lane : Nat) (des r : LaneMode),
      calculateDesiredLaneModeGo laneSpeeds ports lane des = .ok r →
      ∀ i : Fin ports.length, (ports.get i).enabled = true →
        ∃ m, enabledPrefixNeed laneSpeeds (ports.take (i.val + 1)) des = .ok m ∧
          checkLaneModeisValid (lane + i.val) m = .ok () := by
  intro ports
  induction ports with
  | nil => intro lane des r _ i; exact absurd i.isLt (by simp)
  | cons p rest ih =>
    intro lane des r h i hi
    rw [calculateDesiredLaneModeGo] at h
    by_cases hp : p.enabled = true
    · rw [if_pos hp] at h
      cases hn : neededLaneModeForSpeed p.speed laneSpeeds with
      | error e => rw [hn] at h; simp at h
      | ok needed =>
        rw [hn] at h
        dsimp only at h
        cases hc : checkLaneModeisValid lane (if des < needed then needed else des) with
        | error e => rw [hc] at h; simp at h
        | ok u =>
          rw [hc] at h
          dsimp only at h
          rcases i with ⟨iv, hilt⟩
          cases iv with
          | zero =>
            refine ⟨if des < needed then needed else des, ?_, ?_⟩
            · simp [enabledPrefixNeed, hp, hn]
            · simpa using hc
          | succ j =>
            have hjlt : j < rest.length := by simpa using Nat.lt_of_succ_lt_succ hilt
            have hje : (rest.get ⟨j, hjlt⟩).enabled = true := by simpa using hi
            obtain ⟨m, hm1, hm2⟩ :=
              ih (lane + 1) (if des < needed then needed else des) r h ⟨j, hjlt⟩ hje
            refine ⟨m, ?_, ?_⟩
            · have hm1v : enabledPrefixNeed laneSpeeds (rest.take (j + 1))
                  (if des < needed then needed else des) = .ok m := hm1
              show enabledPrefixNeed laneSpeeds ((p :: rest).take (j + 1 + 1)) des = .ok m
              rw [List.take_succ_cons]
              rw [enabledPrefixNeed, if_pos hp, hn]
              exact hm1v
            · have hm2v : checkLaneModeisValid (lane + 1 + j) m = .ok () := hm2
              show checkLaneModeisValid (lane + (j + 1)) m = .ok ()
              rw [show lane + (j + 1) = lane + 1 + j by omega]
              exact hm2v
    · rw [if_neg hp] at h
      rcases i with ⟨iv, hilt⟩
      cases iv with
      | zero => exact absurd (by simpa using hi) hp
      | succ j =>
        have hjlt : j < rest.length := by simpa using Nat.lt_of_succ_lt_succ hilt
        have hje : (rest.get ⟨j, hjlt⟩).enabled = true := by simpa using hi
        obtain ⟨m, hm1, hm2⟩ := ih (lane + 1) des r h ⟨j, hjlt⟩ hje
        refine ⟨m, ?_, ?_⟩
        · have hm1v : enabledPrefixNeed laneSpeeds (rest.take (j + 1)) des = .ok m := hm1
          show enabledPrefixNeed laneSpeeds ((p :: rest).take (j + 1 + 1)) des = .ok m
          rw [List.take_succ_cons]
          rw [enabledPrefixNeed, if_neg hp]
          exact hm1v
        · have hm2v : checkLaneModeisValid (lane + 1 + j) m = .ok () := hm2
          show checkLaneModeisValid (lane + (j + 1)) m = .ok ()
          rw [show lane + (j + 1) = lane + 1 + j by omega]
          exact hm2v

theorem enabledPrefixNeed_range (laneSpeeds : List Nat) :
    ∀ (ports : List SwPort) (des m : LaneMode),
      (des = LaneMode.SINGLE ∨ des = LaneMode.DUAL ∨ des = LaneMode.QUAD) →
      enabledPrefixNeed laneSpeeds ports des = .ok m →
      m = LaneMode.SINGLE ∨ m = LaneMode.DUAL ∨ m = LaneMode.QUAD := by
  intro ports
  induction ports with
  | nil =>
    intro des m hd h
    rw [enabledPrefixNeed] at h
    exact (Except.ok.inj h) ▸ hd
  | cons p rest ih =>
    intro des m hd h
    rw [enabledPrefixNeed] at h
    by_cases hp : p.enabled = true
    · rw [if_pos hp] at h
      cases hn : neededLaneModeForSpeed p.speed laneSpeeds with
      | error e => rw [hn] at h; exact absurd h (by simp)
      | ok needed =>
        rw [hn] at h
        have hneed := neededLaneModeForSpeed_mem p.speed laneSpeeds needed hn
        refine ih _ m ?_ h
        by_cases hlt : des < needed
        · rw [if_pos hlt]; exact hneed
        · rw [if_neg hlt]; exact hd
    · rw [if_neg hp] at h
      exact ih des m hd h

theorem calculateDesiredLaneModeGo_congr (laneSpeeds : List Nat)
    {ports1 ports2 : List SwPort}
    (hf : List.Forall₂
      (fun p q => p.enabled = q.enabled ∧ (p.enabled = true → p.speed = q.speed))
      ports1 ports2) :
    ∀ (lane : Nat) (des : LaneMode),
      calculateDesiredLaneModeGo laneSpeeds ports1 lane des =
        calculateDesiredLaneModeGo laneSpeeds ports2 lane des := by
  induction hf with
  | nil => intro lane des; rfl
  | @cons p q l1 l2 hpq htail ih =>
    intro lane des
    obtain ⟨he, hs⟩ := hpq
    rw [calculateDesiredLaneModeGo, calculateDesiredLaneModeGo]
    by_cases hp : p.enabled = true
    · have hq : q.enabled = true := by rw [← he]; exact hp
      rw [if_pos hp, if_pos hq, ← hs hp]
      cases hn : neededLaneModeForSpeed p.speed laneSpeeds with
      | error e => rfl
      | ok needed =>
        dsimp only
        cases hc : checkLaneModeisValid lane (if des < needed then needed else des) with
        | error e => rfl
        | ok u =>
          dsimp only
          exact ih (lane + 1) (if des < needed then needed else des)
    · have hq : ¬ q.enabled = true := by rw [← he]; exact hp
      rw [if_neg hp, if_neg hq]
      exact ih (lane + 1) des

/-- C3 counterexample: with lane speed 10, members at lanes 0 and 1 enabled
at speed 10 (each needing SINGLE) and the member at lane 2 enabled at speed
20 (needing DUAL), the aggregation computes DUAL and succeeds, although the
enabled member at lane index 1 is at a lane index outside {0, 2}; the claim
says this member causes an InvalidPlacement failure. -/
theorem calculateDesiredLaneMode_placement_counterexample :
    calculateDesiredLaneMode cexPortsC3 [10] = .ok LaneMode.DUAL
    ∧ (cexPortsC3.get ⟨1, by decide⟩).enabled = true := by
  decide

/-- C3 (amended).  The placement check runs against the running aggregate at
the moment each enabled member is processed, not against the final mode.
Hence: (1) a successful QUAD result implies every enabled member sits at
lane index 0; (2) a successful DUAL result implies every enabled member at a
lane index outside {0, 2} was processed while the running aggregate (over
the enabled members up to and including it) was still SINGLE — only members
processed at or after the raise to DUAL are placement-rejected; (3) a
SINGLE running mode never fails the placement check; (4) disabled members
impose no requirement and are not placement-checked: the result depends only
on the enabled flags and the speeds of enabled members. -/
theorem calculateDesiredLaneMode_placement_spec :
    (∀ (ports : List SwPort) (laneSpeeds : List Nat),
        calculateDesiredLaneMode ports laneSpeeds = .ok LaneMode.QUAD →
        ∀ i : Fin ports.length, (ports.get i).enabled = true → i.val = 0)
    ∧ (∀ (ports : List SwPort) (laneSpeeds : List Nat),
        calculateDesiredLaneMode ports laneSpeeds = .ok LaneMode.DUAL →
        ∀ i : Fin ports.length, (ports.get i).enabled = true → i.val ≠ 0 → i.val ≠ 2 →
          enabledPrefixNeed laneSpeeds (ports.take (i.val + 1)) LaneMode.SINGLE =
            .ok LaneMode.SINGLE)
    ∧ (∀ lane : Nat, checkLaneModeisValid lane LaneMode.SINGLE = .ok ())
    ∧ (∀ (laneSpeeds : List Nat) (ports1 ports2 : List SwPort),
        List.Forall₂
          (fun p q => p.enabled = q.enabled ∧ (p.enabled = true → p.speed = q.speed))
          ports1 ports2 →
        calculateDesiredLaneMode ports1 laneSpeeds = calculateDesiredLaneMode ports2 laneSpeeds) := by
  refine ⟨?_, ?_, ?_, ?_⟩
  · intro ports laneSpeeds h i hi
    have h2 := calculateDesiredLaneModeGo_quad laneSpeeds ports 0 LaneMode.SINGLE h i hi
    omega
  · intro ports laneSpeeds h i hi h0 h2
    obtain ⟨m, hm1, hm2⟩ :=
      calculateDesiredLaneModeGo_check laneSpeeds ports 0 LaneMode.SINGLE LaneMode.DUAL h i hi
    have hmmem := enabledPrefixNeed_range laneSpeeds _ _ m (Or.inl rfl) hm1
    rw [Nat.zero_add] at hm2
    rcases hmmem with rfl | rfl | rfl
    · exact hm1
    · exfalso
      simp [checkLaneModeisValid, LaneMode.DUAL, LaneMode.QUAD, h0, h2] at hm2
    · exfalso
      simp [checkLaneModeisValid, LaneMode.QUAD, h0] at hm2
  · intro lane
    rfl
  · intro laneSpeeds ports1 ports2 hf
    exact calculateDesiredLaneModeGo_congr laneSpeeds hf 0 LaneMode.SINGLE

/-- Witness for C3 (amended): on the counterexample input the enabled
member at lane 1 was indeed processed while the running aggregate was
SINGLE; and replacing the speed of a disabled member changes nothing. -/
theorem calculateDesiredLaneMode_placement_spec_witness :
    enabledPrefixNeed [10] (cexPortsC3.take 2) LaneMode.SINGLE = .ok LaneMode.SINGLE
    ∧ calculateDesiredLaneMode [⟨0, true, 10, 0⟩, ⟨1, false, 999, 0⟩] [10] =
        calculateDesiredLaneMode [⟨0, true, 10, 0⟩, ⟨1, false, 40, 0⟩] [10] := by
  constructor
  · have h := calculateDesiredLaneMode_placement_spec.2.1 cexPortsC3 [10] (by decide)
      ⟨1, by decide⟩ (by decide) (by decide) (by decide)
    simpa using h
  · refine calculateDesiredLaneMode_placement_spec.2.2.2 [10] _ _ ?_
    refine List.Forall₂.cons ⟨rfl, fun _ => rfl⟩ ?_
    exact List.Forall₂.cons ⟨rfl, fun h => by simp at h⟩ List.Forall₂.nil

/-! ## C4: the profile path and the dead try/catch -/

/-- C4 (code evidence).  Looking up a present profile whose declared lane
count is 3 does NOT fail: numLanesToLaneMode is a static_cast inside a dead
try/catch, so the unnamed enum value 3 is returned as if it were a valid
LaneMode; an absent profile does fail with UnknownProfile.  The claim's
InvalidLaneCount failure for counts outside {1, 2, 4} never happens. -/
theorem requiredLaneModeFromProfile_cast_bug :
    requiredLaneModeFromProfile 7 [(7, 3)] = .ok 3
    ∧ ((3 : LaneMode) ≠ LaneMode.SINGLE ∧ (3 : LaneMode) ≠ LaneMode.DUAL ∧
        (3 : LaneMode) ≠ LaneMode.QUAD)
    ∧ requiredLaneModeFromProfile 9 [(7, 3)] = .error .UnknownProfile := by
  decide

/-! ## C5: validConfiguration is a total non-mutating boolean check -/

/-- C5.  validConfiguration returns true exactly when resolving the ports
and running the lane-mode aggregation succeeds, returns the state untouched
in both outcomes, and the aggregation it runs is the profile path when a
supported-profiles table exists and the speed path otherwise. -/
theorem validConfiguration_spec (plat : Platform) (st : OrchState) (state : List SwPort) :
    ((validConfiguration plat st state).1 = true ↔
      ∃ m, Except.bind (getSwPorts plat st.group state) (aggregateDesiredLaneMode plat) = .ok m)
    ∧ (validConfiguration plat st state).2 = st
    ∧ (∀ sp, plat.supportedProfiles = some sp →
        ∀ ports, aggregateDesiredLaneMode plat ports = calculateDesiredLaneModeFromConfig ports sp)
    ∧ (plat.supportedProfiles = none →
        ∀ ports, aggregateDesiredLaneMode plat ports = calculateDesiredLaneMode ports plat.laneSpeeds) := by
  refine ⟨?_, ?_, fun sp hsp ports => by simp [aggregateDesiredLaneMode, hsp],
    fun hnone ports => by simp [aggregateDesiredLaneMode, hnone]⟩
  · rw [validConfiguration]
    cases hg : getSwPorts plat st.group state with
    | error e => simp [Except.bind]
    | ok ports =>
      cases ha : aggregateDesiredLaneMode plat ports with
      | error e => simp [Except.bind, ha]
      | ok m => simp [Except.bind, ha]
  · rw [validConfiguration]
    cases hg : getSwPorts plat st.group state with
    | error e => rfl
    | ok ports =>
      cases ha : aggregateDesiredLaneMode plat ports with
      | error e => dsimp only; rw [ha]
      | ok m => dsimp only; rw [ha]

/-- Witness for C5: a supported one-port SINGLE configuration validates to
true, and the path-selection clauses evaluated on concrete platforms. -/
theorem validConfiguration_spec_witness :
    (validConfiguration platLegacyW stSingleW [⟨1, true, 10, 0⟩]).1 = true
    ∧ aggregateDesiredLaneMode platProfilesW [] =
        calculateDesiredLaneModeFromConfig [] [(5, 1), (6, 2), (7, 4)]
    ∧ aggregateDesiredLaneMode platLegacyW [] = calculateDesiredLaneMode [] [10, 25] := by
  refine ⟨?_, ?_, ?_⟩
  · exact (validConfiguration_spec platLegacyW stSingleW _).1.mpr ⟨LaneMode.SINGLE, by decide⟩
  · exact (validConfiguration_spec platProfilesW stSingleW []).2.2.1 _ rfl []
  · exact (validConfiguration_spec platLegacyW stSingleW []).2.2.2 rfl []

/-! ## C6: reconfigureIfNeeded on identical states -/

theorem speedChangeNotify_same (ports : List SwPort) :
    ∀ (l : List BcmPortM) (st : OrchState), speedChangeNotify ports ports st l = st := by
  intro l
  induction l with
  | nil => intro st; rfl
  | cons b rest ih =>
    intro st
    rw [speedChangeNotify]
    cases h : lookupSwPort ports b.portID with
    | none => exact ih st
    | some p =>
      dsimp only
      rw [if_neg (by simp)]
      exact ih st

/-- C6 counterexample: with oldState = newState but the state-derived lane
mode (QUAD, from one enabled 40G port over 10G lanes) differing from the
group's recorded mode (SINGLE), reconfigureIfNeeded performs hardware
mutations: it disables the port, writes the lane-count register and
re-enables linkscan.  The claim says no hardware-mutating call occurs for
ANY state S. -/
theorem reconfigureIfNeeded_identical_counterexample :
    (reconfigureIfNeeded platLegacyW stSingleW [⟨1, true, 40, 0⟩] [⟨1, true, 40, 0⟩]).2.trace
      = [.disableLinkscan 1, .disablePort 1, .setLanes 1 4, .enableLinkscan 1] := by
  decide

/-- C6 (amended).  reconfigureIfNeeded(S, S) performs no hardware-mutating
call and leaves the whole orchestrator state (group, table, registrations
and trace) unchanged, provided the lane mode computed from S equals the
group's recorded current lane mode; when the two differ, a full lane
transition runs even though the two states are identical. -/
theorem reconfigureIfNeeded_identical_spec (plat : Platform) (st : OrchState)
    (state ports : List SwPort)
    (hg : getSwPorts plat st.group state = .ok ports)
    (ha : aggregateDesiredLaneMode plat ports = .ok st.group.laneMode) :
    reconfigureIfNeeded plat st state state = (none, st) := by
  rw [reconfigureIfNeeded, hg]
  dsimp only
  rw [ha]
  dsimp only
  rw [if_neg (by simp)]
  dsimp only
  rw [speedChangeNotify_same]

/-- Witness for C6 (amended): one enabled 10G port over 10G lanes needs
SINGLE, matching the group's recorded mode, so nothing happens. -/
theorem reconfigureIfNeeded_identical_spec_witness :
    reconfigureIfNeeded platLegacyW stSingleW [⟨1, true, 10, 0⟩] [⟨1, true, 10, 0⟩] =
      (none, stSingleW) :=
  reconfigureIfNeeded_identical_spec platLegacyW stSingleW [⟨1, true, 10, 0⟩]
    [⟨1, true, 10, 0⟩] (by decide) (by decide)

/-! ## C7: resource API required but add/remove unsupported -/

/-- C7.  When the controlling port's platform asks for the resource API but
the platform cannot add or remove ports, setActiveLanes fails with
UnsupportedPlatformOperation and returns the state completely unchanged: no
register write, no builder call, and the legacy path is never attempted —
for every port list and desired mode. -/
theorem setActiveLanes_unsupported_spec (plat : Platform) (st : OrchState)
    (ports : List SwPort) (desired : LaneMode)
    (h1 : plat.shouldUsePortResourceAPIs = true)
    (h2 : plat.supportsAddRemovePort = false) :
    setActiveLanes plat st ports desired = (some .UnsupportedPlatformOperation, st) := by
  simp [setActiveLanes, h1, h2]

/-- Witness for C7 at a concrete flex-opted platform without add/remove
support. -/
theorem setActiveLanes_unsupported_spec_witness :
    setActiveLanes platFlexNoAddW stSingleW [] LaneMode.DUAL =
      (some .UnsupportedPlatformOperation, stSingleW) :=
  setActiveLanes_unsupported_spec platFlexNoAddW stSingleW [] LaneMode.DUAL rfl rfl

/-! ## C8: the flex transition post-conditions.  Port-table lemmas first. -/

theorem assocLookup_append (xs ys : List (Nat × Nat)) (key : Nat) :
    assocLookup (xs ++ ys) key =
      match assocLookup xs key with
      | some v => some v
      | none => assocLookup ys key := by
  induction xs with
  | nil => rfl
  | cons e rest ih =>
    obtain ⟨k, v⟩ := e
    rw [List.cons_append, assocLookup, assocLookup]
    by_cases h : k = key
    · rw [if_pos h, if_pos h]
    · rw [if_neg h, if_neg h, ih]

theorem assocLookup_filter_self (l : List (Nat × Nat)) (k : Nat) :
    assocLookup (l.filter fun e => e.1 ≠ k) k = none := by
  induction l with
  | nil => rfl
  | cons e rest ih =>
    obtain ⟨k1, v1⟩ := e
    rw [List.filter_cons]
    by_cases h1 : k1 = k
    · rw [if_neg (by simp [h1])]
      exact ih
    · rw [if_pos (by simp [h1]), assocLookup, if_neg h1]
      exact ih

theorem assocLookup_filter_ne (l : List (Nat × Nat)) (k key : Nat) (hne : key ≠ k) :
    assocLookup (l.filter fun e => e.1 ≠ k) key = assocLookup l key := by
  induction l with
  | nil => rfl
  | cons e rest ih =>
    obtain ⟨k1, v1⟩ := e
    rw [List.filter_cons]
    by_cases h1 : k1 = k
    · rw [if_neg (by simp [h1]), ih, assocLookup,
        if_neg (fun hh : k1 = key => hne (h1 ▸ hh ▸ rfl))]
    · rw [if_pos (by simp [h1]), assocLookup, assocLookup]
      by_cases h2 : k1 = key
      · rw [if_pos h2, if_pos h2]
      · rw [if_neg h2, if_neg h2, ih]

theorem tableLookup_remove_self (t : PortTableM) (k : Nat) :
    tableLookup (tableRemove t k) k = none := by
  rw [tableLookup, tableRemove]
  exact assocLookup_filter_self t.entries k

theorem tableLookup_remove_ne (t : PortTableM) (k key : Nat) (h : key ≠ k) :
    tableLookup (tableRemove t k) key = tableLookup t key := by
  rw [tableLookup, tableRemove, tableLookup]
  exact assocLookup_filter_ne t.entries k key h

theorem tableLookup_add_self (t : PortTableM) (k : Nat) :
    tableLookup (tableAdd t k) k = some t.nextHandle := by
  rw [tableLookup, tableAdd, assocLookup_append, assocLookup_filter_self]
  simp [assocLookup]

theorem tableLookup_add_ne (t : PortTableM) (k key : Nat) (h : key ≠ k) :
    tableLookup (tableAdd t k) key = tableLookup t key := by
  rw [tableLookup, tableAdd, assocLookup_append, assocLookup_filter_ne _ _ _ h]
  cases hx : assocLookup t.entries key with
  | some v => rw [tableLookup, hx]
  | none =>
    rw [tableLookup, hx, assocLookup, if_neg (fun hh : k = key => h hh.symm)]
    rfl

theorem removeAllFromTable_lookup : ∀ (ids : List Nat) (t : PortTableM) (key : Nat),
    tableLookup (removeAllFromTable t ids) key =
      if key ∈ ids then none else tableLookup t key := by
  intro ids
  induction ids with
  | nil => intro t key; simp [removeAllFromTable]
  | cons id rest ih =>
    intro t key
    rw [removeAllFromTable, ih]
    by_cases hm : key ∈ rest
    · simp [hm]
    · by_cases hk : key = id
      · simp [hm, hk, tableLookup_remove_self]
      · simp [hm, hk, tableLookup_remove_ne _ _ _ hk]

theorem removeAllFromTable_nextHandle : ∀ (ids : List Nat) (t : PortTableM),
    (removeAllFromTable t ids).nextHandle = t.nextHandle := by
  intro ids
  induction ids with
  | nil => intro t; rfl
  | cons id rest ih => intro t; rw [removeAllFromTable, ih]; rfl

theorem purgeAndClearTraps_spec : ∀ (l : List BcmPortM) (st : OrchState),
    purgeAndClearTraps st l =
      { st with trace := st.trace ++
          (l.map fun p =>
            [HwOp.l2Purge p.portID kBcmL2DeleteStatic,
             HwOp.l2Purge p.portID kBcmL2DeletePending,
             HwOp.trapControls p.portID false]).flatten } := by
  intro l
  induction l with
  | nil => intro st; simp [purgeAndClearTraps]
  | cons p rest ih =>
    intro st
    rw [purgeAndClearTraps, ih]
    simp [emit, List.append_assoc]

theorem enableTraps_spec : ∀ (l : List BcmPortM) (st : OrchState),
    enableTraps st l =
      { st with trace := st.trace ++ l.map fun p => HwOp.trapControls p.portID true } := by
  intro l
  induction l with
  | nil => intro st; simp [enableTraps]
  | cons p rest ih =>
    intro st
    rw [enableTraps, ih]
    simp [emit, List.append_assoc]

theorem registerMembers_spec : ∀ (l : List BcmPortM) (st : OrchState),
    registerMembers st l =
      { st with registered := st.registered ++ l.map fun p => p.portID } := by
  intro l
  induction l with
  | nil => intro st; simp [registerMembers]
  | cons p rest ih =>
    intro st
    rw [registerMembers, ih]
    simp [List.append_assoc]

theorem addPortsLoop_spec : ∀ (ids : List Nat) (t : PortTableM) (acc : List BcmPortM),
    ids.Nodup →
    ∃ t2 ps, addPortsLoop t ids acc = (none, (t2, acc ++ ps))
      ∧ ps.map (fun p => p.portID) = ids
      ∧ (∀ p ∈ ps, tableLookup t2 p.portID = some p.handle ∧ t.nextHandle ≤ p.handle)
      ∧ (∀ key, key ∉ ids → tableLookup t2 key = tableLookup t key)
      ∧ t.nextHandle ≤ t2.nextHandle := by
  intro ids
  induction ids with
  | nil =>
    intro t acc _
    exact ⟨t, [], by simp [addPortsLoop], rfl, by simp, fun key _ => rfl, Nat.le_refl _⟩
  | cons id rest ih =>
    intro t acc hnd
    obtain ⟨hid, hrest⟩ := List.nodup_cons.mp hnd
    obtain ⟨t2, ps, heq, hmap, hmem, hpres, hnh⟩ :=
      ih (tableAdd t id) (acc ++ [⟨id, t.nextHandle⟩]) hrest
    refine ⟨t2, ⟨id, t.nextHandle⟩ :: ps, ?_, ?_, ?_, ?_, ?_⟩
    · rw [addPortsLoop, tableLookup_add_self]
      dsimp only
      rw [heq]
      simp
    · simp [hmap]
    · intro p hp
      rcases List.mem_cons.mp hp with rfl | hp2
      · exact ⟨by rw [hpres id hid, tableLookup_add_self], Nat.le_refl _⟩
      · obtain ⟨h1, h2⟩ := hmem p hp2
        exact ⟨h1, Nat.le_trans (Nat.le_succ _) h2⟩
    · intro key hkey
      have hk1 : key ≠ id := fun h => hkey (by simp [h])
      have hk2 : key ∉ rest := fun h => hkey (by simp [h])
      rw [hpres key hk2, tableLookup_add_ne _ _ _ hk1]
    · exact Nat.le_trans (Nat.le_succ _) hnh

theorem map_portID_map_id {β : Type} (f : Nat → β) {l1 : List BcmPortM} {l2 : List SwPort}
    (h : l1.map (fun p => p.portID) = l2.map fun q => q.id) :
    l1.map (fun p => f p.portID) = l2.map fun q => f q.id := by
  calc l1.map (fun p => f p.portID) = (l1.map fun p => p.portID).map f := by
        rw [List.map_map]; rfl
    _ = (l2.map fun q => q.id).map f := by rw [h]
    _ = l2.map fun q => f q.id := by rw [List.map_map]; rfl

/-- C8.  Post-conditions of a successful flex transition (with distinct new
port ids): every old member id not among the new ids is absent from the port
table; the group's member list carries exactly the new port ids, each
resolving in the table to its freshly created handle (at or above the
table's previous fresh-handle mark); the controlling port keeps its id and
its handle is the table's current entry for that id; every new member id was
registered into this group; the trace grows by exactly the L2 purges and
trap clears of every old member (in member order), then the builder remove,
add and program calls, then the trap re-enables of every new member; and the
recorded lane mode becomes the desired one. -/
theorem setActiveLanesWithFlexPortApi_spec (st : OrchState) (ports : List SwPort)
    (desired : LaneMode) (stf : OrchState)
    (hok : setActiveLanesWithFlexPortApi st ports desired = (none, stf))
    (hnodup : (ports.map fun q => q.id).Nodup) :
    (∀ id ∈ st.group.allPorts.map fun p => p.portID,
        id ∉ ports.map (fun q => q.id) → tableLookup stf.table id = none)
    ∧ stf.group.allPorts.map (fun p => p.portID) = (ports.map fun q => q.id)
    ∧ (∀ p ∈ stf.group.allPorts,
        tableLookup stf.table p.portID = some p.handle ∧ st.table.nextHandle ≤ p.handle)
    ∧ stf.group.controlling.portID = st.group.controlling.portID
    ∧ tableLookup stf.table stf.group.controlling.portID = some stf.group.controlling.handle
    ∧ stf.registered = st.registered ++ (ports.map fun q => q.id)
    ∧ stf.trace = st.trace
        ++ (st.group.allPorts.map fun p =>
              [HwOp.l2Purge p.portID kBcmL2DeleteStatic,
               HwOp.l2Purge p.portID kBcmL2DeletePending,
               HwOp.trapControls p.portID false]).flatten
        ++ [HwOp.builderRemove (st.group.allPorts.map fun p => p.portID),
            HwOp.builderAdd (ports.map fun q => q.id), HwOp.builderProgram]
        ++ (ports.map fun q => HwOp.trapControls q.id true)
    ∧ stf.group.laneMode = desired := by
  obtain ⟨t2, ps, heq, hmap, hmem, hpres, hnh⟩ :=
    addPortsLoop_spec (ports.map fun q => q.id)
      (removeAllFromTable st.table (st.group.allPorts.map fun p => p.portID)) [] hnodup
  rw [setActiveLanesWithFlexPortApi] at hok
  simp only [purgeAndClearTraps_spec, emit] at hok
  rw [heq] at hok
  simp only [List.nil_append] at hok
  cases hctrl : tableLookup t2 st.group.controlling.portID with
  | none =>
    rw [hctrl] at hok
    simp at hok
  | some h =>
    rw [hctrl] at hok
    simp only [registerMembers_spec, enableTraps_spec] at hok
    have hstf := (Prod.mk.injEq _ _ _ _).mp hok |>.2
    subst hstf
    refine ⟨?_, ?_, ?_, rfl, ?_, ?_, ?_, rfl⟩
    · intro id hidold hidnew
      rw [hpres id hidnew, removeAllFromTable_lookup]
      simp [hidold]
    · exact hmap
    · intro p hp
      obtain ⟨h1, h2⟩ := hmem p hp
      rw [removeAllFromTable_nextHandle] at h2
      exact ⟨h1, h2⟩
    · exact hctrl
    · rw [hmap]
    · simp only [List.append_assoc, List.cons_append, List.nil_append]
      rw [map_portID_map_id (fun id => HwOp.trapControls id true) hmap]

/-- Witness for C8: a concrete flex transition from four SINGLE members
(ids 1-4) to one QUAD port (id 1), with a foreign port 9 in the table: the
removed id 2 is gone from the table, the members are exactly [1], and the
recorded mode is QUAD. -/
theorem setActiveLanesWithFlexPortApi_spec_witness :
    tableLookup stfFlexW.table 2 = none
    ∧ (stfFlexW.group.allPorts.map fun p => p.portID) = [1]
    ∧ stfFlexW.group.laneMode = LaneMode.QUAD := by
  have h := setActiveLanesWithFlexPortApi_spec stQuadGroupW [⟨1, true, 40, 0⟩] LaneMode.QUAD
    stfFlexW (by decide) (by decide)
  exact ⟨h.1 2 (by decide) (by decide), h.2.1, h.2.2.2.2.2.2.2⟩

/-! ## C9: member-list ordering -/

theorem addPortsLoop_ids : ∀ (ids : List Nat) (t : PortTableM) (acc : List BcmPortM),
    ∃ t2 ps, addPortsLoop t ids acc = (none, (t2, acc ++ ps))
      ∧ ps.map (fun p => p.portID) = ids := by
  intro ids
  induction ids with
  | nil => intro t acc; exact ⟨t, [], by simp [addPortsLoop], rfl⟩
  | cons id rest ih =>
    intro t acc
    obtain ⟨t2, ps, heq, hmap⟩ := ih (tableAdd t id) (acc ++ [⟨id, t.nextHandle⟩])
    refine ⟨t2, ⟨id, t.nextHandle⟩ :: ps, ?_, by simp [hmap]⟩
    rw [addPortsLoop, tableLookup_add_self]
    dsimp only
    rw [heq]
    simp

/-- A successful flex transition replaces the member list by the new ports
in exactly the order of the new port list (no re-sorting), keeps the
controlling id and records the desired mode. -/
theorem flex_members_ids (st : OrchState) (ports : List SwPort) (desired : LaneMode)
    (stf : OrchState)
    (hok : setActiveLanesWithFlexPortApi st ports desired = (none, stf)) :
    (stf.group.allPorts.map fun p => p.portID) = (ports.map fun q => q.id)
    ∧ stf.group.controlling.portID = st.group.controlling.portID
    ∧ stf.group.laneMode = desired := by
  obtain ⟨t2, ps, heq, hmap⟩ :=
    addPortsLoop_ids (ports.map fun q => q.id)
      (removeAllFromTable st.table (st.group.allPorts.map fun p => p.portID)) []
  rw [setActiveLanesWithFlexPortApi] at hok
  simp only [purgeAndClearTraps_spec, emit] at hok
  rw [heq] at hok
  simp only [List.nil_append] at hok
  cases hctrl : tableLookup t2 st.group.controlling.portID with
  | none =>
    rw [hctrl] at hok
    simp at hok
  | some h =>
    rw [hctrl] at hok
    simp only [registerMembers_spec, enableTraps_spec] at hok
    have hstf := (Prod.mk.injEq _ _ _ _).mp hok |>.2
    subst hstf
    exact ⟨hmap, rfl, rfl⟩

/-- C9 counterexample: a flex transition whose new port list carries ids in
the order [2, 1] succeeds and leaves the member list with ids [2, 1], which
is not strictly ascending — the replacement is not re-sorted or verified. -/
theorem flexReplacement_sort_counterexample :
    (setActiveLanesWithFlexPortApi stPairW [⟨2, true, 10, 0⟩, ⟨1, true, 10, 0⟩]
        LaneMode.SINGLE).1 = none
    ∧ ((setActiveLanesWithFlexPortApi stPairW [⟨2, true, 10, 0⟩, ⟨1, true, 10, 0⟩]
        LaneMode.SINGLE).2.group.allPorts.map fun p => p.portID) = [2, 1]
    ∧ ¬ List.Pairwise (fun a b : Nat => a < b) [2, 1] := by
  decide

/-- C9 (amended).  At construction the member list is sorted ascending by
port id (a permutation of the input, strictly ascending when the input ids
are distinct).  A successful flex transition replaces the member list by the
new ports in exactly the order of the new port list, without re-sorting or
verifying: the member ids after the replacement are ascending exactly when
the new port list's ids are. -/
theorem portGroup_sorted_spec :
    (∀ (c : BcmPortM) (l : List BcmPortM) (n : Nat) (g : GroupState),
        mkBcmPortGroup c l n = .ok g →
        List.Sorted (fun a b : BcmPortM => a.portID ≤ b.portID) g.allPorts
        ∧ g.allPorts.Perm l
        ∧ ((l.map fun p => p.portID).Nodup →
            List.Pairwise (fun a b : BcmPortM => a.portID < b.portID) g.allPorts))
    ∧ (∀ (st : OrchState) (ports : List SwPort) (desired : LaneMode) (stf : OrchState),
        setActiveLanesWithFlexPortApi st ports desired = (none, stf) →
        (stf.group.allPorts.map fun p => p.portID) = (ports.map fun q => q.id)
        ∧ (List.Pairwise (fun a b : Nat => a < b) (ports.map fun q => q.id) →
            List.Pairwise (fun a b : BcmPortM => a.portID < b.portID) stf.group.allPorts)) := by
  constructor
  · intro c l n g hg
    have hg2 : ({ controlling := c,
                  allPorts := l.insertionSort (fun a b => a.portID ≤ b.portID),
                  laneMode := n } : GroupState) = g := by
      rw [mkBcmPortGroup] at hg
      exact Except.ok.inj hg
    subst hg2
    refine ⟨List.sorted_insertionSort _ l, List.perm_insertionSort _ l, fun hnd => ?_⟩
    have hperm : (l.insertionSort (fun a b => a.portID ≤ b.portID)).Perm l :=
      List.perm_insertionSort _ l
    have hnd2 : ((l.insertionSort (fun a b => a.portID ≤ b.portID)).map
        fun p => p.portID).Nodup :=
      ((hperm.map fun p => p.portID).nodup_iff).mpr hnd
    have hne : List.Pairwise (fun a b : BcmPortM => a.portID ≠ b.portID)
        (l.insertionSort (fun a b => a.portID ≤ b.portID)) :=
      (List.pairwise_map).mp hnd2
    have hle : List.Pairwise (fun a b : BcmPortM => a.portID ≤ b.portID)
        (l.insertionSort (fun a b => a.portID ≤ b.portID)) :=
      List.sorted_insertionSort _ l
    exact (hle.and hne).imp fun hab => Nat.lt_of_le_of_ne hab.1 hab.2
  · intro st ports desired stf hok
    obtain ⟨hmap, _, _⟩ := flex_members_ids st ports desired stf hok
    refine ⟨hmap, fun hpw => ?_⟩
    rw [← hmap] at hpw
    exact (List.pairwise_map).mp hpw

/-- Witness for C9 (amended): constructing a group from members listed as
[3, 1, 2] yields the strictly ascending member list [1, 2, 3]. -/
theorem portGroup_sorted_spec_witness :
    List.Pairwise (fun a b : BcmPortM => a.portID < b.portID)
      [(⟨1, 0⟩ : BcmPortM), ⟨2, 1⟩, ⟨3, 2⟩] := by
  have h := portGroup_sorted_spec.1 ⟨1, 0⟩ [⟨3, 2⟩, ⟨1, 0⟩, ⟨2, 1⟩] 4
    { controlling := ⟨1, 0⟩, allPorts := [⟨1, 0⟩, ⟨2, 1⟩, ⟨3, 2⟩],
      laneMode := LaneMode.QUAD }
    (by decide)
  exact h.2.2 (by decide)

/-! ## C10: speed-change notifications -/

theorem speedChangeNotify_filterMap (oldPorts newPorts : List SwPort) :
    ∀ (l : List BcmPortM) (st : OrchState),
      speedChangeNotify oldPorts newPorts st l =
        { st with trace := st.trace ++ l.filterMap fun b =>
            match lookupSwPort oldPorts b.portID, lookupSwPort newPorts b.portID with
            | some oldPort, some newPort =>
              if oldPort.speed ≠ newPort.speed then
                some (HwOp.linkSpeedChanged b.portID newPort.speed)
              else none
            | _, _ => none } := by
  intro l
  induction l with
  | nil => intro st; simp [speedChangeNotify]
  | cons b rest ih =>
    intro st
    rw [speedChangeNotify]
    cases h1 : lookupSwPort oldPorts b.portID with
    | none =>
      dsimp only
      rw [ih]
      simp [List.filterMap_cons, h1]
    | some op =>
      cases h2 : lookupSwPort newPorts b.portID with
      | none =>
        dsimp only
        rw [ih]
        simp [List.filterMap_cons, h1, h2]
      | some np =>
        dsimp only
        by_cases hs : op.speed ≠ np.speed
        · rw [if_pos hs, ih]
          simp [emit, List.filterMap_cons, h1, h2, hs, List.append_assoc]
        · rw [if_neg hs, ih]
          simp [List.filterMap_cons, h1, h2, hs]

/-- C10.  When the port resolutions and the lane-mode computation succeed
and the (possible) transition succeeds with state st1, reconfigureIfNeeded
succeeds and appends — after the whole transition trace — exactly one
linkSpeedChanged(newSpeed) notification for each group member (of the member
list as it stands after the transition) that is present in both the old and
new port lists with differing speeds; members absent from either list or
with unchanged speed get none. -/
theorem reconfigureIfNeeded_speedNotify_spec (plat : Platform) (st : OrchState)
    (oldState newState oldPorts newPorts : List SwPort)
    (desired : LaneMode) (st1 : OrchState)
    (hold : getSwPorts plat st.group oldState = .ok oldPorts)
    (hnew : getSwPorts plat st.group newState = .ok newPorts)
    (hagg : aggregateDesiredLaneMode plat newPorts = .ok desired)
    (htrans : (if desired ≠ st.group.laneMode then
        reconfigureLaneMode plat st oldPorts newPorts desired else (none, st)) = (none, st1)) :
    reconfigureIfNeeded plat st oldState newState =
      (none, { st1 with trace := st1.trace ++
        st1.group.allPorts.filterMap fun b =>
          match lookupSwPort oldPorts b.portID, lookupSwPort newPorts b.portID with
          | some oldPort, some newPort =>
            if oldPort.speed ≠ newPort.speed then
              some (HwOp.linkSpeedChanged b.portID newPort.speed)
            else none
          | _, _ => none }) := by
  rw [reconfigureIfNeeded, hold]
  dsimp only
  rw [hnew]
  dsimp only
  rw [hagg]
  dsimp only
  rw [htrans]
  dsimp only
  rw [speedChangeNotify_filterMap]

/-- Witness for C10: a pure 10G to 25G speed change on port 1 with the lane
mode unchanged (SINGLE both ways) emits exactly one linkSpeedChanged(25)
notification and nothing else. -/
theorem reconfigureIfNeeded_speedNotify_spec_witness :
    (reconfigureIfNeeded platLegacyW stSingleW [⟨1, true, 10, 0⟩] [⟨1, true, 25, 0⟩]).2.trace
      = [HwOp.linkSpeedChanged 1 25] := by
  have h := reconfigureIfNeeded_speedNotify_spec platLegacyW stSingleW
    [⟨1, true, 10, 0⟩] [⟨1, true, 25, 0⟩] [⟨1, true, 10, 0⟩] [⟨1, true, 25, 0⟩]
    LaneMode.SINGLE stSingleW (by decide) (by decide) (by decide) (by decide)
  rw [h]
  decide

end FbossModel
